/-
Verification of the rootless-personio attendance client.

This file shallowly embeds the attendance client from
`pkg/personio/attendance.go` (a second, slightly different revision of the
same file is embedded in `personio.schema.json`; where they differ both are
modelled) together with the parts of the client that the attendance code
calls.  Go `time.Time` values are modelled as a unix second count, a
nanosecond fraction, and a zone offset; `map[string]*uuid.UUID` is modelled
as an association list whose values are `Option UUID` (a present `none`
models a stored nil pointer, Go's marker for a known-undefined day ID).
-/
import Mathlib

namespace Personio

/-- A civil (calendar) date, the meaning of a Go `time.Time` formatted with
the `"2006-01-02"` layout.  That layout renders the date injectively, so the
string cache keys of the Go code are modelled by the date itself. -/
structure Date where
  year : Int
  month : Nat
  day : Nat
deriving DecidableEq, Repr

/-- Go `time.Time`: an absolute instant (unix seconds plus a nanosecond
fraction in `[0, 10^9)`, as in Go's internal representation) together with
the zone offset (seconds east of UTC) of the location the value carries. -/
structure GoTime where
  sec : Int
  nsec : Nat
  offset : Int
deriving DecidableEq, Repr

/-- Go `t.Truncate(time.Second)`: rounds down to a whole second.  With the
nanosecond fraction kept in `[0, 10^9)` this just drops the fraction; the
location is kept. -/
def goTruncateSecond (t : GoTime) : GoTime :=
  { t with nsec := 0 }

/-- Go `t.UTC()`: same instant, location changed to UTC (offset 0). -/
def goUTC (t : GoTime) : GoTime :=
  { t with offset := 0 }

/-- Go `t.Local()`: same instant, location changed to the local zone. -/
def goLocal (localOffset : Int) (t : GoTime) : GoTime :=
  { t with offset := localOffset }

/-- Civil date from a count of days since 1970-01-01 (proleptic Gregorian). -/
def civilFromDays (z0 : Int) : Date :=
  let z := z0 + 719468
  let era : Int := z.ediv 146097
  let doe : Int := z - era * 146097
  let yoe : Int := (doe - doe.ediv 1460 + doe.ediv 36524 - doe.ediv 146096).ediv 365
  let y : Int := yoe + era * 400
  let doy : Int := doe - (365 * yoe + yoe.ediv 4 - yoe.ediv 100)
  let mp : Int := (5 * doy + 2).ediv 153
  let d : Int := doy - (153 * mp + 2).ediv 5 + 1
  let m : Int := if mp < 10 then mp + 3 else mp - 9
  { year := y + (if m ≤ 2 then 1 else 0), month := m.toNat, day := d.toNat }

/-- A wall-clock date and time of day: what a Go layout without fractional
seconds renders. -/
structure WallDateTime where
  date : Date
  hour : Nat
  minute : Nat
  second : Nat
deriving DecidableEq, Repr

/-- The wall clock of `t` in its own location: Go's `Format` renders the
time read in the value's own zone. -/
def wallClock (t : GoTime) : WallDateTime :=
  let loc := t.sec + t.offset
  let tod := (loc.emod 86400).toNat
  { date := civilFromDays (loc.ediv 86400)
    hour := tod / 3600
    minute := tod % 3600 / 60
    second := tod % 60 }

/-- Go `t.Format("2006-01-02")` (`timeDateOnlyLayout`): the civil date of `t`
read in its own location. -/
def formatDateOnly (t : GoTime) : Date :=
  (wallClock t).date

/-- Go `t.Format("2006-01-02T15:04:05Z")`, the layout used by
`SetWorkingTimes`.  Go recognises a zone directive only as `Z07:00` or
`Z0700`; a bare trailing `Z` is a literal character.  The rendered string is
therefore the wall clock of `t` in its own location with a literal `Z`
appended — no conversion to UTC happens. -/
def formatLayoutLiteralZ (t : GoTime) : WallDateTime :=
  wallClock t

/-- A `uuid.UUID` is an opaque 128-bit value; modelled as a natural number.
`uuid.New()` draws from a stream `mint : Nat → UUID` indexed by a per-run
counter. -/
abbrev UUID := Nat

/-- The constant `uuid.Nil`, the zero UUID. -/
def uuidNil : UUID := 0

/-- Go `error` values produced by the client.  `wrapped` models
`fmt.Errorf("...: %w", err)`. -/
inductive Err where
  | notLoggedIn
  | api (msg : String)
  | wrapped (ctx : String) (e : Err)
deriving DecidableEq, Repr

/-- The authentication state of the session (spec §3). -/
inductive AuthState where
  | loggedOut
  | awaitingDeviceChallenge
  | loggedIn
deriving DecidableEq, Repr

/-- One entry of `AttendanceCalendar.AttendanceDays.Data`: a `CalendarDay`
with its `ID` and `Attributes.Day` (the civil-date string, modelled as the
date itself).  The remaining attributes are not consumed by the client. -/
structure CalendarDay where
  id : UUID
  day : Date
deriving DecidableEq, Repr

/-- The part of `AttendanceCalendar` the client consumes:
`AttendanceDays.Data`. -/
structure AttendanceCalendar where
  attendanceDays : List CalendarDay
deriving DecidableEq, Repr

/-- The day-ID cache `map[string]*uuid.UUID`, keyed by the
`"2006-01-02"`-formatted date.  A present `none` value models a stored nil
pointer: a day known to have an undefined ID. -/
abbrev DayCache := List (Date × Option UUID)

/-- Go map read with presence flag: `id, ok := m[k]`. -/
def cacheGet : DayCache → Date → Option (Option UUID)
  | [], _ => none
  | (k, v) :: rest, d => if d = k then some v else cacheGet rest d

/-- Go map write `m[k] = v` (replaces an existing entry). -/
def cachePut : DayCache → Date → Option UUID → DayCache
  | [], k, v => [(k, v)]
  | (a, b) :: rest, k, v =>
    if a = k then (k, v) :: rest else (a, b) :: cachePut rest k v

/-- Go `url.Values.Set(key, value)` on an initialised map: replaces any
existing values for the key.  Values here are the formatted dates the
client writes. -/
def urlValuesSet (q : List (String × Date)) (k : String) (v : Date) :
    List (String × Date) :=
  (k, v) :: q.filter (fun p => ¬(p.1 = k))

/-- Association lookup on built query parameters. -/
def queryGet : List (String × Date) → String → Option Date
  | [], _ => none
  | (k, v) :: rest, s => if s = k then some v else queryGet rest s

/-- A Go runtime panic, or a normal value. -/
inductive PanicOr (α : Type) where
  | panicked (msg : String)
  | value (a : α)
deriving DecidableEq, Repr

/-- Go `url.Values` is `map[string][]string`, which may be nil
(`var queryParams url.Values`); `Set` on a nil map is an unguarded
assignment into a nil map and panics. -/
def nilMapSet (q : Option (List (String × Date))) (k : String) (v : Date) :
    PanicOr (List (String × Date)) :=
  match q with
  | none => .panicked "assignment to entry in nil map"
  | some m => .value (urlValuesSet m k v)

/-- A `Period` as submitted by `SetAttendance` (pkg/personio `Period`). -/
structure Period where
  id : UUID
  periodType : String
  comment : Option String
  projectID : Option Int
  start : GoTime
  end_ : GoTime
  legacyBreakMin : Int
deriving DecidableEq, Repr

/-- The constant `PeriodTypeWork`. -/
def PeriodTypeWork : String := "work"

/-- The constant `PeriodTypeBreak`. -/
def PeriodTypeBreak : String := "break"

/-- The attributes of one record of `PersonioPeriods` that `GetWorkingTimes`
rewrites (the other fields pass through untouched). -/
structure PersonioPeriodAttr where
  start : GoTime
  end_ : GoTime
  createdAt : GoTime
  updatedAt : GoTime
deriving DecidableEq, Repr

/-- The single record `SetWorkingTimes` posts: `ID`, `EmployeeID`, and the
`Start`/`End` strings produced by `Format("2006-01-02T15:04:05Z")`
(modelled as the wall-clock value that string denotes); `ActivityID`,
`Comment` and `ProjectID` are left at their zero values. -/
structure WTRecord where
  id : UUID
  employeeID : Int
  start : WallDateTime
  end_ : WallDateTime
  comment : String
deriving DecidableEq, Repr

/-- The remote application, seen through `RawJSON` + `ParseResponseJSON`:
each request is a pure function of what the client transmits.  `localOffset`
is the zone offset the `clock/timezone` capability reports for `Local()`. -/
structure Server where
  calendar : Int → List (String × Date) → Except Err AttendanceCalendar
  periods : Date → Date → Int → Except Err (List PersonioPeriodAttr)
  putDay : Int → UUID → List Period → Except Err Unit
  postPeriods : List WTRecord → Except Err Nat
  localOffset : Int

/-- The mutable state of a `Client` that the attendance code touches:
session state, employee ID, the per-run day-ID cache, the index into the
UUID stream, and a count of HTTP requests issued so far (for stating the
at-most-one-query properties). -/
structure ClientState where
  auth : AuthState
  employeeID : Int
  dayIDCache : DayCache
  uuidCounter : Nat
  remoteCalls : Nat
deriving DecidableEq, Repr

/-- Modelled from the spec: `(*Client).assertLoggedIn` is not included under
`src/`; per §4.1, `ensureLoggedIn` "fails fast with a descriptive error if
state is not LoggedIn" (`NotLoggedIn`, §7) and performs no network call. -/
def assertLoggedIn (s : ClientState) : Except Err Unit :=
  if s.auth = .loggedIn then .ok () else .error .notLoggedIn

/-- The query parameters built by the `GetAttendanceCalendar` variant in
`pkg/personio/attendance.go`: both `Set` calls format `startDate`, so
`end_date` is overwritten with `startDate`'s formatted value. -/
def calendarQueryParamsGo (startDate endDate : GoTime) :
    List (String × Date) :=
  urlValuesSet (urlValuesSet [] "start_date" (formatDateOnly startDate))
    "end_date" (formatDateOnly startDate)

/-- The query parameters built by the `GetAttendanceCalendar` variant
embedded in `personio.schema.json`: `end_date` is set from `endDate`. -/
def calendarQueryParamsSchema (startDate endDate : GoTime) :
    List (String × Date) :=
  urlValuesSet (urlValuesSet [] "start_date" (formatDateOnly startDate))
    "end_date" (formatDateOnly endDate)

/-- The `GetAttendanceCalendar` variant of `pkg/personio/attendance.go`:
after `assertLoggedIn`, `queryParams` is declared as a nil `url.Values`
(`var queryParams url.Values`) and then written to via `Set`. -/
def GetAttendanceCalendarGo (srv : Server) (s : ClientState)
    (employeeID : Int) (startDate endDate : GoTime) :
    PanicOr (Except Err AttendanceCalendar × ClientState) :=
  match assertLoggedIn s with
  | .error e => .value (.error e, s)
  | .ok _ =>
    let queryParams : Option (List (String × Date)) := none
    match nilMapSet queryParams "start_date" (formatDateOnly startDate) with
    | .panicked msg => .panicked msg
    | .value q =>
      match nilMapSet (some q) "end_date" (formatDateOnly startDate) with
      | .panicked msg => .panicked msg
      | .value q2 =>
        let s2 := { s with remoteCalls := s.remoteCalls + 1 }
        .value (srv.calendar employeeID q2, s2)

/-- The `GetAttendanceCalendar` variant embedded in `personio.schema.json`:
an initialised `url.Values` with `start_date` from `startDate` and
`end_date` from `endDate`, then one GET request.  The date arguments are
the formatted civil dates (all call sites pass whole days). -/
def GetAttendanceCalendar (srv : Server) (s : ClientState)
    (employeeID : Int) (startDate endDate : Date) :
    Except Err AttendanceCalendar × ClientState :=
  match assertLoggedIn s with
  | .error e => (.error e, s)
  | .ok _ =>
    let queryParams :=
      urlValuesSet (urlValuesSet [] "start_date" startDate)
        "end_date" endDate
    let s2 := { s with remoteCalls := s.remoteCalls + 1 }
    (srv.calendar employeeID queryParams, s2)

/-- Method `GetMyAttendanceCalendar`: delegates with the client's own employee
ID. -/
def GetMyAttendanceCalendar (srv : Server) (s : ClientState)
    (startDate endDate : Date) :
    Except Err AttendanceCalendar × ClientState :=
  GetAttendanceCalendar srv s s.employeeID startDate endDate

/-- Gregorian leap year. -/
def isLeapYear (y : Int) : Bool :=
  (y % 4 == 0 && y % 100 != 0) || y % 400 == 0

/-- Days in a calendar month. -/
def daysInMonth (y : Int) (m : Nat) : Nat :=
  if m = 2 then (if isLeapYear y then 29 else 28)
  else if m = 4 ∨ m = 6 ∨ m = 9 ∨ m = 11 then 30
  else 31

/-- Modelled from the spec: `util.TimeFullMonth` (pkg/util, not included
under `src/`) "computes the full calendar-month window containing `date`"
(§4.2): the first and the last day of that month. -/
def timeFullMonth (d : Date) : Date × Date :=
  (⟨d.year, d.month, 1⟩, ⟨d.year, d.month, daysInMonth d.year d.month⟩)

/-- The days iterated by the second loop of `cacheDayIDs`: from `startDate`
while `date.Before(endDate.Add(24h))`, stepping one day.  The only call
site passes a `timeFullMonth` window, so the iteration stays within one
month; it is modelled for such same-month windows. -/
def windowDates (startDate endDate : Date) : List Date :=
  if startDate.year = endDate.year ∧ startDate.month = endDate.month
      ∧ startDate.day ≤ endDate.day then
    (List.range (endDate.day + 1 - startDate.day)).map
      (fun i => ⟨startDate.year, startDate.month, startDate.day + i⟩)
  else []

/-- The first loop of `cacheDayIDs`: caches the ID of every day the server
listed, keyed by its `Attributes.Day`. -/
def cacheKnownDays (m : DayCache) (days : List CalendarDay) : DayCache :=
  days.foldl (fun acc day => cachePut acc day.day (some day.id)) m

/-- The second loop of `cacheDayIDs`: walks the window and stores an
explicit nil (undefined) marker for every day not yet present. -/
def markUnknownDays (m : DayCache) (dates : List Date) : DayCache :=
  dates.foldl
    (fun acc date =>
      match cacheGet acc date with
      | some _ => acc
      | none => cachePut acc date none) m

/-- Method `(*Client).cacheDayIDs`: first caches the ID of every day the server
listed, then marks every other day of the window as known-undefined. -/
def cacheDayIDs (s : ClientState) (days : List CalendarDay)
    (startDate endDate : Date) : ClientState :=
  let m := markUnknownDays (cacheKnownDays s.dayIDCache days)
    (windowDates startDate endDate)
  { s with dayIDCache := m }

/-- Method `(*Client).GetDayUUID`: cache lookup; on a miss, queries the full
calendar month containing `date` and caches an entry for every day of the
window, then returns the cache's value for `date` (Go's map read of a
possibly absent key yields nil). -/
def GetDayUUID (srv : Server) (s : ClientState) (date : Date) :
    Except Err (Option UUID) × ClientState :=
  match cacheGet s.dayIDCache date with
  | some id => (.ok id, s)
  | none =>
    let w := timeFullMonth date
    match GetMyAttendanceCalendar srv s w.1 w.2 with
    | (.error e, s2) => (.error (.wrapped "get days for range" e), s2)
    | (.ok cal, s2) =>
      let s3 := cacheDayIDs s2 cal.attendanceDays w.1 w.2
      (.ok ((cacheGet s3.dayIDCache date).getD none), s3)

/-- The query parameters `GetDayUUID`'s refresh sends: the full-month
window of `d` (what `GetAttendanceCalendar` builds from the
`timeFullMonth` bounds). -/
def monthQuery (d : Date) : List (String × Date) :=
  urlValuesSet (urlValuesSet [] "start_date" (timeFullMonth d).1)
    "end_date" (timeFullMonth d).2

/-- The cache contents after `GetDayUUID`'s refresh for the month of `d`,
given the calendar `cal` the server answered. -/
def refreshedDayCache (s : ClientState) (cal : AttendanceCalendar)
    (d : Date) : DayCache :=
  markUnknownDays (cacheKnownDays s.dayIDCache cal.attendanceDays)
    (windowDates (timeFullMonth d).1 (timeFullMonth d).2)

/-- Method `(*Client).GetOrNewDayUUID`: looks the day up via `GetDayUUID`; when the
ID is undefined, mints a fresh UUID, stores it in the cache, and returns
it. -/
def GetOrNewDayUUID (mint : Nat → UUID) (srv : Server) (s : ClientState)
    (date : Date) : Except Err UUID × ClientState :=
  match GetDayUUID srv s date with
  | (.error e, s2) => (.error (.wrapped "get day UUID" e), s2)
  | (.ok (some id), s2) => (.ok id, s2)
  | (.ok none, s2) =>
    let newID := mint s2.uuidCounter
    let s3 := { s2 with
      dayIDCache := cachePut s2.dayIDCache date (some newID)
      uuidCounter := s2.uuidCounter + 1 }
    (.ok newID, s3)

/-- The normalisation loop of `SetAttendance`: for each period, a nil ID is
replaced by a fresh UUID, `Start`/`End` are truncated to whole seconds and
converted to UTC, and an empty period type defaults to `PeriodTypeWork`.
Returns the rewritten periods and the advanced UUID-stream index. -/
def normalizePeriods (mint : Nat → UUID) (ctr : Nat) :
    List Period → List Period × Nat
  | [] => ([], ctr)
  | p :: rest =>
    let idStep : UUID × Nat :=
      if p.id = uuidNil then (mint ctr, ctr + 1) else (p.id, ctr)
    let q := { p with
      id := idStep.1
      start := goUTC (goTruncateSecond p.start)
      end_ := goUTC (goTruncateSecond p.end_)
      periodType := if p.periodType = "" then PeriodTypeWork else p.periodType }
    let restStep := normalizePeriods mint idStep.2 rest
    (q :: restStep.1, restStep.2)

/-- Method `(*Client).SetAttendance`: asserts the session is logged in, normalises
the periods, resolves the day ID via `GetOrNewDayUUID`, and PUTs the body
(employee ID plus periods) keyed by that day ID. -/
def SetAttendance (mint : Nat → UUID) (srv : Server) (s : ClientState)
    (date : Date) (periods : List Period) : Except Err Unit × ClientState :=
  match assertLoggedIn s with
  | .error e => (.error e, s)
  | .ok _ =>
    let norm := normalizePeriods mint s.uuidCounter periods
    let s1 := { s with uuidCounter := norm.2 }
    match GetOrNewDayUUID mint srv s1 date with
    | (.error e, s2) => (.error e, s2)
    | (.ok dayID, s2) =>
      let s3 := { s2 with remoteCalls := s2.remoteCalls + 1 }
      match srv.putDay s3.employeeID dayID norm.1 with
      | .error e => (.error e, s3)
      | .ok _ => (.ok (), s3)

/-- Method `(*Client).GetWorkingTimes`: asserts the session is logged in, GETs the
periods filtered by the formatted from/to dates and the employee ID, and
converts the returned instants to local time. -/
def GetWorkingTimes (srv : Server) (s : ClientState) (from_ to_ : GoTime) :
    Except Err (List PersonioPeriodAttr) × ClientState :=
  match assertLoggedIn s with
  | .error e => (.error e, s)
  | .ok _ =>
    let s1 := { s with remoteCalls := s.remoteCalls + 1 }
    match srv.periods (formatDateOnly from_) (formatDateOnly to_) s1.employeeID with
    | .error e => (.error e, s1)
    | .ok res =>
      (.ok (res.map (fun p =>
        { p with
          start := goLocal srv.localOffset p.start
          end_ := goLocal srv.localOffset p.end_
          createdAt := goLocal srv.localOffset p.createdAt
          updatedAt := goLocal srv.localOffset p.updatedAt })), s1)

/-- The single-record payload `SetWorkingTimes` posts: a freshly generated
ID, the employee ID, and `Start`/`End` rendered by
`Format("2006-01-02T15:04:05Z")` — the wall clock in each argument's own
zone with a literal `Z`. -/
def workingTimesPayload (mint : Nat → UUID) (ctr : Nat) (employeeID : Int)
    (from_ to_ : GoTime) : List WTRecord :=
  [{ id := mint ctr
     employeeID := employeeID
     start := formatLayoutLiteralZ from_
     end_ := formatLayoutLiteralZ to_
     comment := "" }]

/-- Method `(*Client).SetWorkingTimes`: asserts the session is logged in, POSTs the
single-record payload, and treats any non-success response as fatal (the
result count is only logged). -/
def SetWorkingTimes (mint : Nat → UUID) (srv : Server) (s : ClientState)
    (from_ to_ : GoTime) : Except Err Unit × ClientState :=
  match assertLoggedIn s with
  | .error e => (.error e, s)
  | .ok _ =>
    let payload := workingTimesPayload mint s.uuidCounter s.employeeID from_ to_
    let s1 := { s with
      uuidCounter := s.uuidCounter + 1
      remoteCalls := s.remoteCalls + 1 }
    match srv.postPeriods payload with
    | .error e => (.error e, s1)
    | .ok _count => (.ok (), s1)

/-- What the provider's login endpoint answered, as far as the state
machine is concerned. -/
structure LoginResponse where
  newDeviceChallenge : Bool
  csrfToken : Option String
  sessionCookie : Option String
  employeeID : Option Int
deriving DecidableEq, Repr

/-- The outcome of the login handshake. -/
inductive LoginOutcome where
  | awaitingDeviceChallenge (csrfToken : String)
  | loggedIn (sessionCookie : String) (employeeID : Int)
  | authFailure
deriving DecidableEq, Repr

/-- Modelled from the spec: the Session Manager's `login` handshake
(pkg/personio client/login code, not included under `src/`).  Per §4.1, a
response reporting a "new device" challenge yields
`AwaitingDeviceChallenge` carrying the CSRF token; only otherwise can a
session-cookie-bearing success yield `LoggedIn`. -/
def login (resp : LoginResponse) : LoginOutcome :=
  if resp.newDeviceChallenge then
    .awaitingDeviceChallenge (resp.csrfToken.getD "")
  else
    match resp.sessionCookie with
    | some cookie => .loggedIn cookie (resp.employeeID.getD 0)
    | none => .authFailure

/-- The session state an outcome leaves the client in. -/
def outcomeState : LoginOutcome → AuthState
  | .awaitingDeviceChallenge _ => .awaitingDeviceChallenge
  | .loggedIn _ _ => .loggedIn
  | .authFailure => .loggedOut

/-- A server that rejects every request; used to instantiate theorems at
concrete inputs. -/
def stubServer : Server where
  calendar := fun _ _ => .error (.api "stub")
  periods := fun _ _ _ => .error (.api "stub")
  putDay := fun _ _ _ => .error (.api "stub")
  postPeriods := fun _ => .error (.api "stub")
  localOffset := 0

/-- A server whose calendar read succeeds with an empty day list and whose
writes fail; used to instantiate theorems at concrete inputs. -/
def okServer : Server :=
  { stubServer with calendar := fun _ _ => .ok ⟨[]⟩ }

/- ------------------------------------------------------------------ -/
/- Theorems -/
/- ------------------------------------------------------------------ -/

-- sanity examples for the calendar arithmetic
example : civilFromDays 0 = ⟨1970, 1, 1⟩ := by decide
example : civilFromDays 19375 = ⟨2023, 1, 18⟩ := by decide

/-- Reading a map after a write: the written key holds the new value, every
other key is unchanged. -/
theorem cacheGet_cachePut (m : DayCache) (k k' : Date) (v : Option UUID) :
    cacheGet (cachePut m k v) k' =
      if k' = k then some v else cacheGet m k' := by
  induction m with
  | nil =>
    by_cases h : k' = k <;> simp [cachePut, cacheGet, h]
  | cons p rest ih =>
    obtain ⟨a, b⟩ := p
    by_cases hak : a = k
    · subst hak
      by_cases hk : k' = a <;> simp [cachePut, cacheGet, hk]
    · by_cases hk : k' = a
      · subst hk
        simp [cachePut, cacheGet, hak, Ne.symm hak]
      · simp [cachePut, cacheGet, hak, hk, ih]

/-- The first `cacheDayIDs` loop never removes a cached key. -/
theorem cacheKnownDays_isSome (days : List CalendarDay) (m : DayCache)
    (d : Date) (h : (cacheGet m d).isSome = true) :
    (cacheGet (cacheKnownDays m days) d).isSome = true := by
  induction days generalizing m with
  | nil => exact h
  | cons day rest ih =>
    refine ih (cachePut m day.day (some day.id)) ?_
    rw [cacheGet_cachePut]
    by_cases hd : d = day.day <;> simp [hd, h]

/-- The second `cacheDayIDs` loop never removes a cached key. -/
theorem markUnknownDays_isSome (dates : List Date) (m : DayCache)
    (d : Date) (h : (cacheGet m d).isSome = true) :
    (cacheGet (markUnknownDays m dates) d).isSome = true := by
  induction dates generalizing m with
  | nil => exact h
  | cons a rest ih =>
    show (cacheGet (markUnknownDays
      (match cacheGet m a with
       | some _ => m
       | none => cachePut m a none) rest) d).isSome = true
    rcases ha : cacheGet m a with _ | w
    · refine ih (cachePut m a none) ?_
      rw [cacheGet_cachePut]
      by_cases hd : d = a <;> simp [hd, h]
    · exact ih m h

/-- After the second `cacheDayIDs` loop every date of the window is
cached. -/
theorem markUnknownDays_covers (dates : List Date) (m : DayCache)
    (d : Date) (hd : d ∈ dates) :
    (cacheGet (markUnknownDays m dates) d).isSome = true := by
  induction dates generalizing m with
  | nil => cases hd
  | cons a rest ih =>
    show (cacheGet (markUnknownDays
      (match cacheGet m a with
       | some _ => m
       | none => cachePut m a none) rest) d).isSome = true
    rcases List.mem_cons.mp hd with rfl | hmem
    · rcases ha : cacheGet m d with _ | w
      · refine markUnknownDays_isSome rest _ d ?_
        rw [cacheGet_cachePut]
        simp
      · refine markUnknownDays_isSome rest _ d ?_
        simp [ha]
    · rcases ha : cacheGet m a with _ | w
      · exact ih _ hmem
      · exact ih _ hmem

/-- Every month has at least one day. -/
theorem daysInMonth_pos (y : Int) (m : Nat) : 1 ≤ daysInMonth y m := by
  unfold daysInMonth
  split
  · split <;> omega
  · split <;> omega

/-- Any valid date of a month lies in that month's full window. -/
theorem mem_windowDates_of_same_month (d e : Date)
    (hy : e.year = d.year) (hm : e.month = d.month)
    (h1 : 1 ≤ e.day) (h2 : e.day ≤ daysInMonth d.year d.month) :
    e ∈ windowDates (timeFullMonth d).1 (timeFullMonth d).2 := by
  have hpos := daysInMonth_pos d.year d.month
  obtain ⟨ey, em, ed⟩ := e
  simp only at hy hm h1 h2
  subst hy
  subst hm
  simp only [timeFullMonth, windowDates, List.mem_map, List.mem_range,
    and_true, true_and, le_refl, if_pos, hpos]
  refine ⟨ed - 1, by omega, ?_⟩
  simp only [Date.mk.injEq, true_and]
  omega

/-- A cache hit returns the cached value and leaves the client
untouched. -/
theorem getDayUUID_hit (srv : Server) (s : ClientState) (d : Date)
    (v : Option UUID) (h : cacheGet s.dayIDCache d = some v) :
    GetDayUUID srv s d = (.ok v, s) := by
  simp [GetDayUUID, h]

/-- A cache miss with a successful remote query: one request is issued,
the cache is refreshed for the whole month window, and the refreshed
cache's value for the date is returned. -/
theorem getDayUUID_miss (srv : Server) (s : ClientState) (d : Date)
    (cal : AttendanceCalendar)
    (hmiss : cacheGet s.dayIDCache d = none) (hauth : s.auth = .loggedIn)
    (hsrv : srv.calendar s.employeeID (monthQuery d) = .ok cal) :
    GetDayUUID srv s d =
      (.ok ((cacheGet (refreshedDayCache s cal d) d).getD none),
       { s with remoteCalls := s.remoteCalls + 1
                dayIDCache := refreshedDayCache s cal d }) := by
  have hq : srv.calendar s.employeeID
      (urlValuesSet (urlValuesSet [] "start_date" (timeFullMonth d).1)
        "end_date" (timeFullMonth d).2) = .ok cal := hsrv
  simp [GetDayUUID, hmiss, GetMyAttendanceCalendar, GetAttendanceCalendar,
    assertLoggedIn, hauth, hq, cacheDayIDs, refreshedDayCache]

/-- A cache miss while not logged in: the underlying calendar fetch fails
fast and nothing changes. -/
theorem getDayUUID_miss_notLoggedIn (srv : Server) (s : ClientState)
    (d : Date) (hmiss : cacheGet s.dayIDCache d = none)
    (hauth : ¬s.auth = .loggedIn) :
    GetDayUUID srv s d =
      (.error (.wrapped "get days for range" .notLoggedIn), s) := by
  simp [GetDayUUID, hmiss, GetMyAttendanceCalendar, GetAttendanceCalendar,
    assertLoggedIn, hauth]

/-- A cache miss whose remote query fails: one request was issued and the
error is propagated, the cache untouched. -/
theorem getDayUUID_miss_err (srv : Server) (s : ClientState) (d : Date)
    (e : Err) (hmiss : cacheGet s.dayIDCache d = none)
    (hauth : s.auth = .loggedIn)
    (hsrv : srv.calendar s.employeeID (monthQuery d) = .error e) :
    GetDayUUID srv s d =
      (.error (.wrapped "get days for range" e),
       { s with remoteCalls := s.remoteCalls + 1 }) := by
  have hq : srv.calendar s.employeeID
      (urlValuesSet (urlValuesSet [] "start_date" (timeFullMonth d).1)
        "end_date" (timeFullMonth d).2) = .error e := hsrv
  simp [GetDayUUID, hmiss, GetMyAttendanceCalendar, GetAttendanceCalendar,
    assertLoggedIn, hauth, hq]

/-- After a cache hit, `GetOrNewDayUUID` issues no request and preserves
the session fields. -/
theorem getOrNew_of_hit (mint : Nat → UUID) (srv : Server)
    (s : ClientState) (d : Date) (v : Option UUID)
    (h : cacheGet s.dayIDCache d = some v) :
    (GetOrNewDayUUID mint srv s d).2.remoteCalls = s.remoteCalls ∧
    (GetOrNewDayUUID mint srv s d).2.auth = s.auth ∧
    (GetOrNewDayUUID mint srv s d).2.employeeID = s.employeeID := by
  have hh := getDayUUID_hit srv s d v h
  unfold GetOrNewDayUUID
  rw [hh]
  cases v <;> simp

/-- After a cache hit (any cached value), `GetOrNewDayUUID` issues no
request. -/
theorem getOrNew_of_isSome (mint : Nat → UUID) (srv : Server)
    (s : ClientState) (d : Date)
    (h : (cacheGet s.dayIDCache d).isSome = true) :
    (GetOrNewDayUUID mint srv s d).2.remoteCalls = s.remoteCalls := by
  rcases Option.isSome_iff_exists.mp h with ⟨v, hv⟩
  exact (getOrNew_of_hit mint srv s d v hv).1

/-- Each `GetOrNewDayUUID` call issues at most one request. -/
theorem getOrNew_remoteCalls_le (mint : Nat → UUID) (srv : Server)
    (s : ClientState) (d : Date) :
    (GetOrNewDayUUID mint srv s d).2.remoteCalls ≤ s.remoteCalls + 1 := by
  rcases hc : cacheGet s.dayIDCache d with _ | v
  · by_cases ha : s.auth = .loggedIn
    · rcases hs : srv.calendar s.employeeID (monthQuery d) with e | cal
      · have hh := getDayUUID_miss_err srv s d e hc ha hs
        unfold GetOrNewDayUUID
        rw [hh]
      · have hh := getDayUUID_miss srv s d cal hc ha hs
        unfold GetOrNewDayUUID
        rw [hh]
        rcases (cacheGet (refreshedDayCache s cal d) d).getD none with _ | id <;> simp
    · have hh := getDayUUID_miss_notLoggedIn srv s d hc ha
      unfold GetOrNewDayUUID
      rw [hh]
      simp
  · have := getOrNew_of_isSome mint srv s d (by simp [hc])
    omega

/-- A cache miss with a successful remote query covers the whole month
window: exactly one request, and every date of the window is cached
afterwards. -/
theorem getOrNew_of_miss_covers (mint : Nat → UUID) (srv : Server)
    (s : ClientState) (d : Date) (cal : AttendanceCalendar) (d' : Date)
    (hmiss : cacheGet s.dayIDCache d = none) (hauth : s.auth = .loggedIn)
    (hsrv : srv.calendar s.employeeID (monthQuery d) = .ok cal)
    (hd' : d' ∈ windowDates (timeFullMonth d).1 (timeFullMonth d).2) :
    (GetOrNewDayUUID mint srv s d).2.remoteCalls = s.remoteCalls + 1 ∧
    (cacheGet (GetOrNewDayUUID mint srv s d).2.dayIDCache d').isSome = true := by
  have hh := getDayUUID_miss srv s d cal hmiss hauth hsrv
  have hcov : (cacheGet (refreshedDayCache s cal d) d').isSome = true :=
    markUnknownDays_covers _ _ _ hd'
  unfold GetOrNewDayUUID
  rw [hh]
  rcases hg : (cacheGet (refreshedDayCache s cal d) d).getD none with _ | id
  · refine ⟨by simp, ?_⟩
    simp only
    rw [cacheGet_cachePut]
    by_cases hdd : d' = d
    · simp [hdd]
    · simp only [if_neg hdd]
      exact hcov
  · exact ⟨by simp, by simpa using hcov⟩

/-- A successful `GetOrNewDayUUID` leaves the returned identifier in the
cache. -/
theorem getOrNew_success_caches (mint : Nat → UUID) (srv : Server)
    (s : ClientState) (d : Date) (id : UUID)
    (h : (GetOrNewDayUUID mint srv s d).1 = .ok id) :
    cacheGet (GetOrNewDayUUID mint srv s d).2.dayIDCache d =
      some (some id) := by
  rcases hc : cacheGet s.dayIDCache d with _ | v
  · by_cases ha : s.auth = .loggedIn
    · rcases hs : srv.calendar s.employeeID (monthQuery d) with e | cal
      · have hh := getDayUUID_miss_err srv s d e hc ha hs
        unfold GetOrNewDayUUID at h
        rw [hh] at h
        simp at h
      · have hh := getDayUUID_miss srv s d cal hc ha hs
        unfold GetOrNewDayUUID at h ⊢
        rw [hh] at h ⊢
        rcases hg : (cacheGet (refreshedDayCache s cal d) d).getD none with _ | w
        · simp only [hg] at h ⊢
          simp at h ⊢
          rw [cacheGet_cachePut]
          simp [h]
        · simp only [hg] at h ⊢
          simp at h ⊢
          rcases ho : cacheGet (refreshedDayCache s cal d) d with _ | u
          · rw [ho] at hg
            simp at hg
          · rw [ho] at hg
            simp at hg
            rw [hg, h]
    · have hh := getDayUUID_miss_notLoggedIn srv s d hc ha
      unfold GetOrNewDayUUID at h
      rw [hh] at h
      simp at h
  · rcases v with _ | w
    · have hh := getDayUUID_hit srv s d none hc
      unfold GetOrNewDayUUID at h ⊢
      rw [hh] at h ⊢
      simp at h ⊢
      rw [cacheGet_cachePut]
      simp [h]
    · have hh := getDayUUID_hit srv s d (some w) hc
      unfold GetOrNewDayUUID at h ⊢
      rw [hh] at h ⊢
      simp at h ⊢
      rw [← h]
      exact hc

/-- A date cached with a defined identifier is returned as-is, with no
request, no mint, and no state change. -/
theorem getOrNew_cached_some (mint : Nat → UUID) (srv : Server)
    (s : ClientState) (d : Date) (id : UUID)
    (h : cacheGet s.dayIDCache d = some (some id)) :
    GetOrNewDayUUID mint srv s d = (.ok id, s) := by
  have hh := getDayUUID_hit srv s d (some id) h
  unfold GetOrNewDayUUID
  rw [hh]

/-- C2: `GetOrNewDayUUID` is idempotent within a run: once a call returns
an identifier for a date, a second call for the same date returns the
identical identifier and leaves the client state completely unchanged (no
second mint, no request) — the minted identifier was stored in the cache
before being returned. -/
theorem getOrNewDayUUID_idempotent (mint : Nat → UUID) (srv : Server)
    (s0 : ClientState) (d : Date) (id : UUID)
    (h : (GetOrNewDayUUID mint srv s0 d).1 = .ok id) :
    GetOrNewDayUUID mint srv (GetOrNewDayUUID mint srv s0 d).2 d =
      (.ok id, (GetOrNewDayUUID mint srv s0 d).2) :=
  getOrNew_cached_some mint srv _ d id
    (getOrNew_success_caches mint srv s0 d id h)

/-- Witness for C2: a fresh client resolving 2023-01-18 twice. -/
theorem getOrNewDayUUID_idempotent_witness :
    (GetOrNewDayUUID (fun n => n + 100) okServer
        ⟨.loggedIn, 7, [], 0, 0⟩ ⟨2023, 1, 18⟩).1 = .ok 100 ∧
    GetOrNewDayUUID (fun n => n + 100) okServer
        (GetOrNewDayUUID (fun n => n + 100) okServer
          ⟨.loggedIn, 7, [], 0, 0⟩ ⟨2023, 1, 18⟩).2 ⟨2023, 1, 18⟩ =
      (.ok 100,
        (GetOrNewDayUUID (fun n => n + 100) okServer
          ⟨.loggedIn, 7, [], 0, 0⟩ ⟨2023, 1, 18⟩).2) :=
  ⟨rfl,
    getOrNewDayUUID_idempotent (fun n => n + 100) okServer
      ⟨.loggedIn, 7, [], 0, 0⟩ ⟨2023, 1, 18⟩ 100 rfl⟩

/-- C1: for two distinct dates of the same calendar month, resolving both
through the day-ID cache issues at most one remote calendar query in
total: a first miss queries the full month window and caches an entry for
every day of it, so the second lookup is a cache hit. -/
theorem month_cache_single_query (mint : Nat → UUID) (srv : Server)
    (s0 : ClientState) (d1 d2 : Date) (cal : AttendanceCalendar)
    (hne : d1 ≠ d2) (hy : d2.year = d1.year) (hm : d2.month = d1.month)
    (hlo : 1 ≤ d2.day) (hhi : d2.day ≤ daysInMonth d1.year d1.month)
    (hauth : s0.auth = .loggedIn)
    (hsrv : srv.calendar s0.employeeID (monthQuery d1) = .ok cal) :
    (GetOrNewDayUUID mint srv
        (GetOrNewDayUUID mint srv s0 d1).2 d2).2.remoteCalls ≤
      s0.remoteCalls + 1 := by
  rcases h1 : cacheGet s0.dayIDCache d1 with _ | v
  · have hmem : d2 ∈ windowDates (timeFullMonth d1).1 (timeFullMonth d1).2 :=
      mem_windowDates_of_same_month d1 d2 hy hm hlo hhi
    obtain ⟨hrc, hcov⟩ :=
      getOrNew_of_miss_covers mint srv s0 d1 cal d2 h1 hauth hsrv hmem
    have hsecond :=
      getOrNew_of_isSome mint srv (GetOrNewDayUUID mint srv s0 d1).2 d2 hcov
    omega
  · have hfix := getOrNew_of_hit mint srv s0 d1 v h1
    have hb :=
      getOrNew_remoteCalls_le mint srv (GetOrNewDayUUID mint srv s0 d1).2 d2
    omega

/-- Witness for C1: 2023-01-18 and 2023-01-20 resolved from a fresh
client yield exactly one remote query. -/
theorem month_cache_single_query_witness :
    (⟨2023, 1, 18⟩ : Date) ≠ ⟨2023, 1, 20⟩ ∧
    (⟨2023, 1, 20⟩ : Date).year = (⟨2023, 1, 18⟩ : Date).year ∧
    (⟨2023, 1, 20⟩ : Date).month = (⟨2023, 1, 18⟩ : Date).month ∧
    1 ≤ (⟨2023, 1, 20⟩ : Date).day ∧
    (⟨2023, 1, 20⟩ : Date).day ≤ daysInMonth 2023 1 ∧
    (⟨.loggedIn, 7, [], 0, 0⟩ : ClientState).auth = .loggedIn ∧
    okServer.calendar 7 (monthQuery ⟨2023, 1, 18⟩) = .ok ⟨[]⟩ ∧
    (GetOrNewDayUUID (fun n => n + 100) okServer
        (GetOrNewDayUUID (fun n => n + 100) okServer
          ⟨.loggedIn, 7, [], 0, 0⟩ ⟨2023, 1, 18⟩).2
        ⟨2023, 1, 20⟩).2.remoteCalls ≤ 0 + 1 :=
  ⟨by decide, rfl, rfl, by decide, by decide, rfl, rfl,
    month_cache_single_query (fun n => n + 100) okServer
      ⟨.loggedIn, 7, [], 0, 0⟩ ⟨2023, 1, 18⟩ ⟨2023, 1, 20⟩ ⟨[]⟩
      (by decide) rfl rfl (by decide) (by decide) rfl rfl⟩

/-- C4: no partial rollback on a failed write: when `SetAttendance` fails
at the submission step after the day identifier was minted, the call
returns the submission error, the minted identifier remains in the day-ID
cache, and any retry for the same date (from any state carrying that
cache) resolves the identical identifier without minting another or
querying again. -/
theorem setAttendance_failed_submit_keeps_minted_id
    (mint : Nat → UUID) (srv : Server) (s0 : ClientState) (date : Date)
    (periods : List Period) (err : Err) (dayID : UUID)
    (hauth : s0.auth = .loggedIn)
    (hput : ∀ eid u ps, srv.putDay eid u ps = .error err)
    (hday : (GetOrNewDayUUID mint srv
        { s0 with uuidCounter := (normalizePeriods mint s0.uuidCounter periods).2 }
        date).1 = .ok dayID)
    (hminted : (GetOrNewDayUUID mint srv
        { s0 with uuidCounter := (normalizePeriods mint s0.uuidCounter periods).2 }
        date).2.uuidCounter =
      (normalizePeriods mint s0.uuidCounter periods).2 + 1) :
    (SetAttendance mint srv s0 date periods).1 = .error err ∧
    cacheGet (SetAttendance mint srv s0 date periods).2.dayIDCache date =
      some (some dayID) ∧
    ∀ s3 : ClientState,
      s3.dayIDCache = (SetAttendance mint srv s0 date periods).2.dayIDCache →
        GetOrNewDayUUID mint srv s3 date = (.ok dayID, s3) := by
  have ha : assertLoggedIn s0 = .ok () := by simp [assertLoggedIn, hauth]
  have hcacheP := getOrNew_success_caches mint srv
    { s0 with uuidCounter := (normalizePeriods mint s0.uuidCounter periods).2 }
    date dayID hday
  rcases hgo : GetOrNewDayUUID mint srv
      { s0 with uuidCounter := (normalizePeriods mint s0.uuidCounter periods).2 }
      date with ⟨r, s2⟩
  rw [hgo] at hday hcacheP
  simp only at hday hcacheP
  subst hday
  have hSA : SetAttendance mint srv s0 date periods =
      (.error err, { s2 with remoteCalls := s2.remoteCalls + 1 }) := by
    simp only [SetAttendance, ha, hgo, hput]
  refine ⟨?_, ?_, ?_⟩
  · rw [hSA]
  · rw [hSA]
    simpa using hcacheP
  · intro s3 hs3
    refine getOrNew_cached_some mint srv s3 date dayID ?_
    rw [hs3, hSA]
    simpa using hcacheP

/-- Witness for C4: a fresh client whose PUT fails keeps the minted
identifier for 2023-01-18 and reuses it. -/
theorem setAttendance_failed_submit_keeps_minted_id_witness :
    (⟨.loggedIn, 7, [], 0, 0⟩ : ClientState).auth = .loggedIn ∧
    (∀ eid u ps, okServer.putDay eid u ps = .error (.api "stub")) ∧
    (GetOrNewDayUUID (fun n => n + 100) okServer
        ⟨.loggedIn, 7, [], 0, 0⟩ ⟨2023, 1, 18⟩).1 = .ok 100 ∧
    ((SetAttendance (fun n => n + 100) okServer
        ⟨.loggedIn, 7, [], 0, 0⟩ ⟨2023, 1, 18⟩ []).1 = .error (.api "stub") ∧
      cacheGet (SetAttendance (fun n => n + 100) okServer
          ⟨.loggedIn, 7, [], 0, 0⟩ ⟨2023, 1, 18⟩ []).2.dayIDCache
          ⟨2023, 1, 18⟩ = some (some 100) ∧
      ∀ s3 : ClientState,
        s3.dayIDCache = (SetAttendance (fun n => n + 100) okServer
            ⟨.loggedIn, 7, [], 0, 0⟩ ⟨2023, 1, 18⟩ []).2.dayIDCache →
          GetOrNewDayUUID (fun n => n + 100) okServer s3 ⟨2023, 1, 18⟩ =
            (.ok 100, s3)) :=
  ⟨rfl, fun _ _ _ => rfl, rfl,
    setAttendance_failed_submit_keeps_minted_id (fun n => n + 100) okServer
      ⟨.loggedIn, 7, [], 0, 0⟩ ⟨2023, 1, 18⟩ [] (.api "stub") 100
      rfl (fun _ _ _ => rfl) rfl rfl⟩

/-- C3: `SetAttendance` normalises every period's start and end to
whole-second UTC instants before transmission: each submitted period's
`start` and `end` keep the input's whole-second count, drop the sub-second
fraction, and carry offset 0 (UTC). -/
theorem setAttendance_normalizes_whole_second_utc
    (mint : Nat → UUID) (ctr : Nat) (ps : List Period) :
    List.Forall₂ (fun p q =>
        q.start = { sec := p.start.sec, nsec := 0, offset := 0 } ∧
        q.end_ = { sec := p.end_.sec, nsec := 0, offset := 0 })
      ps (normalizePeriods mint ctr ps).1 := by
  induction ps generalizing ctr with
  | nil => exact .nil
  | cons p rest ih =>
    refine .cons ⟨rfl, rfl⟩ (ih _)

/-- C8: every period passed to `SetAttendance` with an unset (empty) type
is submitted with type `PeriodTypeWork`; a period whose type is set keeps
it unchanged. -/
theorem setAttendance_defaults_period_type_to_work
    (mint : Nat → UUID) (ctr : Nat) (ps : List Period) :
    List.Forall₂ (fun p q =>
        q.periodType =
          if p.periodType = "" then PeriodTypeWork else p.periodType)
      ps (normalizePeriods mint ctr ps).1 := by
  induction ps generalizing ctr with
  | nil => exact .nil
  | cons p rest ih =>
    refine .cons rfl (ih _)

/-- C5: every operation requiring authentication (`GetAttendanceCalendar`,
`GetWorkingTimes`, `SetAttendance`, `SetWorkingTimes`) first checks the
logged-in state and, when the session is not `LoggedIn`, fails fast with
the `NotLoggedIn` error, returning the state unchanged (no network call,
no mutation). -/
theorem authenticated_ops_fail_fast
    (mint : Nat → UUID) (srv : Server) (s : ClientState) (eid : Int)
    (d1 d2 date : Date) (f t : GoTime) (ps : List Period)
    (h : s.auth ≠ .loggedIn) :
    GetAttendanceCalendar srv s eid d1 d2 = (.error .notLoggedIn, s) ∧
    GetWorkingTimes srv s f t = (.error .notLoggedIn, s) ∧
    SetAttendance mint srv s date ps = (.error .notLoggedIn, s) ∧
    SetWorkingTimes mint srv s f t = (.error .notLoggedIn, s) := by
  have ha : assertLoggedIn s = .error .notLoggedIn := by
    simp [assertLoggedIn, h]
  refine ⟨?_, ?_, ?_, ?_⟩ <;>
    simp [GetAttendanceCalendar, GetWorkingTimes, SetAttendance,
      SetWorkingTimes, ha]

/-- Witness for C5 at a concrete logged-out client. -/
theorem authenticated_ops_fail_fast_witness :
    (⟨.loggedOut, 7, [], 0, 0⟩ : ClientState).auth ≠ .loggedIn ∧
    (GetAttendanceCalendar stubServer ⟨.loggedOut, 7, [], 0, 0⟩ 7
        ⟨2023, 1, 1⟩ ⟨2023, 1, 31⟩ =
      (.error .notLoggedIn, ⟨.loggedOut, 7, [], 0, 0⟩) ∧
    GetWorkingTimes stubServer ⟨.loggedOut, 7, [], 0, 0⟩
        ⟨0, 0, 0⟩ ⟨86400, 0, 0⟩ =
      (.error .notLoggedIn, ⟨.loggedOut, 7, [], 0, 0⟩) ∧
    SetAttendance (fun n => n) stubServer ⟨.loggedOut, 7, [], 0, 0⟩
        ⟨2023, 1, 18⟩ [] =
      (.error .notLoggedIn, ⟨.loggedOut, 7, [], 0, 0⟩) ∧
    SetWorkingTimes (fun n => n) stubServer ⟨.loggedOut, 7, [], 0, 0⟩
        ⟨0, 0, 0⟩ ⟨86400, 0, 0⟩ =
      (.error .notLoggedIn, ⟨.loggedOut, 7, [], 0, 0⟩)) :=
  ⟨by decide,
    authenticated_ops_fail_fast (fun n => n) stubServer
      ⟨.loggedOut, 7, [], 0, 0⟩ 7 ⟨2023, 1, 1⟩ ⟨2023, 1, 31⟩ ⟨2023, 1, 18⟩
      ⟨0, 0, 0⟩ ⟨86400, 0, 0⟩ [] (by decide)⟩

/-- C6: the `GetAttendanceCalendar` variant in `pkg/personio/attendance.go`
silently overwrites the `end_date` query parameter with `startDate`'s
formatted value, for every `startDate` and `endDate`; the variant embedded
in `personio.schema.json` sets `end_date` from `endDate`, so the two
variants build the same query exactly when `startDate` and `endDate`
format to the same date. -/
theorem calendar_query_end_date_overwritten (startDate endDate : GoTime) :
    queryGet (calendarQueryParamsGo startDate endDate) "end_date" =
      some (formatDateOnly startDate) ∧
    (calendarQueryParamsGo startDate endDate =
        calendarQueryParamsSchema startDate endDate ↔
      formatDateOnly startDate = formatDateOnly endDate) := by
  constructor
  · simp [calendarQueryParamsGo, urlValuesSet, queryGet]
  · simp [calendarQueryParamsGo, calendarQueryParamsSchema, urlValuesSet]

/-- C9: a login response signalling a new-device challenge transitions the
session to `AwaitingDeviceChallenge` and never to `LoggedIn`, even when a
session cookie is present in the response. -/
theorem challenge_login_never_logged_in (resp : LoginResponse)
    (h : resp.newDeviceChallenge = true) :
    outcomeState (login resp) = .awaitingDeviceChallenge ∧
    outcomeState (login resp) ≠ .loggedIn := by
  simp [login, outcomeState, h]

/-- Witness for C9 at a challenge response that does carry a session
cookie. -/
theorem challenge_login_never_logged_in_witness :
    (⟨true, some "csrf", some "cookie", some 7⟩ :
        LoginResponse).newDeviceChallenge = true ∧
    (outcomeState (login ⟨true, some "csrf", some "cookie", some 7⟩) =
        .awaitingDeviceChallenge ∧
      outcomeState (login ⟨true, some "csrf", some "cookie", some 7⟩) ≠
        .loggedIn) :=
  ⟨by decide,
    challenge_login_never_logged_in
      ⟨true, some "csrf", some "cookie", some 7⟩ (by decide)⟩

/-- C10: the `GetAttendanceCalendar` variant in
`pkg/personio/attendance.go` declares `queryParams` as a nil `url.Values`
and then writes to it via `Set`, so for every logged-in client and every
`startDate`/`endDate` the call panics on the nil-map assignment before any
request is issued, never returning a calendar or an error value. -/
theorem getAttendanceCalendarGo_panics_on_nil_map
    (srv : Server) (s : ClientState) (eid : Int) (sd ed : GoTime)
    (h : s.auth = .loggedIn) :
    GetAttendanceCalendarGo srv s eid sd ed =
      .panicked "assignment to entry in nil map" := by
  simp [GetAttendanceCalendarGo, assertLoggedIn, h, nilMapSet]

/-- Witness for C10 at a concrete logged-in client. -/
theorem getAttendanceCalendarGo_panics_on_nil_map_witness :
    (⟨.loggedIn, 7, [], 0, 0⟩ : ClientState).auth = .loggedIn ∧
    GetAttendanceCalendarGo stubServer ⟨.loggedIn, 7, [], 0, 0⟩ 7
        ⟨0, 0, 0⟩ ⟨86400, 0, 0⟩ =
      .panicked "assignment to entry in nil map" :=
  ⟨by decide,
    getAttendanceCalendarGo_panics_on_nil_map stubServer
      ⟨.loggedIn, 7, [], 0, 0⟩ 7 ⟨0, 0, 0⟩ ⟨86400, 0, 0⟩ (by decide)⟩

/-- C7 (code bug): `SetWorkingTimes` formats with the layout
`"2006-01-02T15:04:05Z"`, whose trailing `Z` is a literal, so the
transmitted strings carry each argument's wall clock in its own zone —
not the UTC equivalent.  At `from = 1970-01-01T01:00:00+01:00` (instant 0,
offset +3600) the payload start is `1970-01-01T01:00:00Z` while the UTC
equivalent is `1970-01-01T00:00:00Z`; the final conjunct runs
`SetWorkingTimes` against a server accepting exactly that payload,
confirming it is what gets transmitted. -/
theorem setWorkingTimes_transmits_wall_clock_not_utc :
    workingTimesPayload (fun n => n) 0 42 ⟨0, 0, 3600⟩ ⟨3600, 0, 3600⟩ =
      [{ id := 0, employeeID := 42, start := ⟨⟨1970, 1, 1⟩, 1, 0, 0⟩,
         end_ := ⟨⟨1970, 1, 1⟩, 2, 0, 0⟩, comment := "" }] ∧
    wallClock (goUTC ⟨0, 0, 3600⟩) = ⟨⟨1970, 1, 1⟩, 0, 0, 0⟩ ∧
    formatLayoutLiteralZ ⟨0, 0, 3600⟩ ≠ wallClock (goUTC ⟨0, 0, 3600⟩) ∧
    SetWorkingTimes (fun n => n)
        { calendar := fun _ _ => .error (.api "unexpected")
          periods := fun _ _ _ => .error (.api "unexpected")
          putDay := fun _ _ _ => .error (.api "unexpected")
          postPeriods := fun recs =>
            if recs = [{ id := 0, employeeID := 42,
                         start := ⟨⟨1970, 1, 1⟩, 1, 0, 0⟩,
                         end_ := ⟨⟨1970, 1, 1⟩, 2, 0, 0⟩, comment := "" }]
            then .ok 1 else .error (.api "unexpected")
          localOffset := 0 }
        ⟨.loggedIn, 42, [], 0, 0⟩ ⟨0, 0, 3600⟩ ⟨3600, 0, 3600⟩ =
      (.ok (), ⟨.loggedIn, 42, [], 1, 1⟩) := by
  refine ⟨by decide, by decide, by decide, by rfl⟩

end Personio
